import Mathlib

set_option linter.unusedVariables false

/-!
Shallow embedding of `src/thriftrw/spec/service.py` (thriftrw-python).

Python objects become Lean structures.  The mutable object graph that
`link` operates on is modelled with explicit state passing: the
compilation scope's `service_specs` dictionary becomes a `ServiceStore`
(an association list from service names to `ServiceSpec` values), and
Python object references between services are modelled as store keys
(names).  An exception raised by `link` becomes an `Option LinkError`
component of the result, paired with the post-mutation store, because in
Python the mutations performed before the `raise` survive the exception.

Pieces of the repository referenced by `service.py` but not present
under `src/` (`struct.py`, `union.py`, `spec_mapper.py`, the IDL AST)
are modelled from the spec; each such definition carries a doc comment
saying so.
-/

/-- A reference to a Thrift type.  Modelled from the spec: compiled specs
reference nested types by name only (`named`); linking resolves a name
into a direct reference (`direct`). -/
inductive TypeRef where
  | named (n : String)
  | direct (n : String)
deriving DecidableEq

/-- Embeds `thriftrw.spec.struct.FieldSpec` (struct.py is not under `src/`).
Modelled from the spec: `{id, name, type reference, required flag,
optional default value}`.  Default values are kept opaque as strings. -/
structure FieldSpec where
  id : Int
  name : String
  spec : TypeRef
  required : Bool
  default_value : Option String
deriving DecidableEq

/-- Embeds the `thriftrw.idl.Field` AST node.  Modelled from the spec: the AST
exposes field id, name, a type reference by name, an optional
requiredness marking, and an optional default. -/
structure ASTField where
  id : Int
  name : String
  ftype : String
  requiredness : Option Bool
  default : Option String
deriving DecidableEq

/-- Embeds the `thriftrw.idl.Function` AST node.  Modelled from the spec: functions
expose a parameter list, an optional return type, an exception list
(optional: the parser may supply `None`, cf. `exceptions or []` in
`FunctionResultSpec.compile`), and a oneway flag. -/
structure ASTFunction where
  name : String
  parameters : List ASTField
  return_type : Option String
  exceptions : Option (List ASTField)
  oneway : Bool
deriving DecidableEq

/-- Embeds the `thriftrw.idl.Service` AST node.  Modelled from the spec: a service
exposes its name, its function list, and an optional parent name. -/
structure ASTService where
  name : String
  functions : List ASTFunction
  parent : Option String
deriving DecidableEq

/-- The surface attached to a struct/union type spec after linking.
Modelled from the spec: the externally consumable value-type
representation; only its identity (the type's name) is modelled. -/
structure TypeSurface where
  name : String
deriving DecidableEq

/-- Embeds `thriftrw.spec.struct.StructTypeSpec` (struct.py is not under
`src/`).  Modelled from the spec: a name, an ordered field list, a
`linked` flag and an optional surface. -/
structure StructTypeSpec where
  name : String
  fields : List FieldSpec
  linked : Bool
  surface : Option TypeSurface
deriving DecidableEq

/-- Embeds `thriftrw.spec.union.UnionTypeSpec` (union.py is not under `src/`).
Modelled from the spec: like a struct spec plus the `allow_empty` flag
("may have zero fields set"). -/
structure UnionTypeSpec where
  name : String
  fields : List FieldSpec
  allow_empty : Bool
  linked : Bool
  surface : Option TypeSurface
deriving DecidableEq

/-- The type registry part of the compilation scope, read during
linking.  Modelled from the spec: only the set of known type names is
needed by the modelled fragment. -/
abbrev TypeScope := List String

/-- Embeds `thriftrw.spec.spec_mapper.type_spec_or_ref` (spec_mapper.py is not
under `src/`).  Modelled from the spec: compilation stores nested type
references by name only; no lookups happen during the compile pass. -/
def type_spec_or_ref (t : String) : TypeRef := TypeRef.named t

/-- Resolution of one type reference against the scope, used by the
modelled struct/union `link`.  Modelled from the spec: linking replaces
a name reference by a direct reference to the spec registered under
that name. -/
def resolveRef (scope : TypeScope) (r : TypeRef) : TypeRef :=
  match r with
  | TypeRef.named n => if n ∈ scope then TypeRef.direct n else TypeRef.named n
  | TypeRef.direct n => TypeRef.direct n

/-- Embeds `FieldSpec.compile` from struct.py (not under `src/`).  Modelled
from the spec: id and name are taken from the schema, requiredness is
taken from the schema and defaults to optional when the schema does not
mark it.  (The error branch taken when `require_requiredness` is true
and the schema is silent lies outside the modelled fragment; every call
site in `service.py` passes `require_requiredness=False`.) -/
def FieldSpec.compile (field : ASTField) (struct_name : String)
    (require_requiredness : Bool) : FieldSpec :=
  { id := field.id
    name := field.name
    spec := type_spec_or_ref field.ftype
    required := field.requiredness.getD false
    default_value := field.default }

/-- Embeds `StructTypeSpec.link` from struct.py (not under `src/`).  Modelled
from the spec: guarded by the `linked` flag, the first call resolves the
name references held by the fields against the scope and attaches the
surface; subsequent calls are no-ops. -/
def StructTypeSpec.link (s : StructTypeSpec) (scope : TypeScope) : StructTypeSpec :=
  if s.linked then s
  else
    { s with
      linked := true
      fields := s.fields.map (fun fl => { fl with spec := resolveRef scope fl.spec })
      surface := some { name := s.name } }

/-- Embeds `UnionTypeSpec.link` from union.py (not under `src/`).  Modelled
from the spec, exactly as for structs. -/
def UnionTypeSpec.link (u : UnionTypeSpec) (scope : TypeScope) : UnionTypeSpec :=
  if u.linked then u
  else
    { u with
      linked := true
      fields := u.fields.map (fun fl => { fl with spec := resolveRef scope fl.spec })
      surface := some { name := u.name } }

/-- In the source `FunctionArgsSpec` is a `StructTypeSpec` subclass adding no state. -/
abbrev FunctionArgsSpec := StructTypeSpec

/-- Embeds `FunctionArgsSpec.compile` (service.py lines 47-68): the parameter
list becomes a struct named `{service}_{function}_request` with one
compiled field per parameter, `require_requiredness=False`. -/
def FunctionArgsSpec.compile (parameters : List ASTField)
    (service_name function_name : String) : FunctionArgsSpec :=
  let args_name := service_name ++ "_" ++ function_name ++ "_request"
  let param_specs :=
    parameters.map (fun param => FieldSpec.compile param args_name false)
  { name := args_name, fields := param_specs, linked := false, surface := none }

/-- In the source `FunctionResultSpec` is a `UnionTypeSpec` subclass adding no state. -/
abbrev FunctionResultSpec := UnionTypeSpec

/-- Embeds `FunctionResultSpec.compile` (service.py lines 79-118): a union
named `{service}_{function}_response`; when the return type is not
`None` a field with id 0 named "success" holding the return type comes
first; then one compiled field per declared exception
(`exceptions or []` guards a missing list); `allow_empty` is passed as
`True` unconditionally (line 118). -/
def FunctionResultSpec.compile (return_type : Option String)
    (exceptions : Option (List ASTField))
    (service_name function_name : String) : FunctionResultSpec :=
  let result_name := service_name ++ "_" ++ function_name ++ "_response"
  let success_specs : List FieldSpec :=
    match return_type with
    | some t =>
        [{ id := 0, name := "success", spec := type_spec_or_ref t,
           required := false, default_value := none }]
    | none => []
  let exc_specs :=
    (exceptions.getD []).map (fun exc => FieldSpec.compile exc result_name false)
  { name := result_name
    fields := success_specs ++ exc_specs
    allow_empty := true
    linked := false
    surface := none }

/-- Embeds `ServiceFunction` (service.py line 266): a named tuple
`(name, request, response)` carrying the args and result surfaces. -/
structure ServiceFunction where
  name : String
  request : Option TypeSurface
  response : Option TypeSurface
deriving DecidableEq

/-- Embeds `FunctionSpec` (service.py lines 121-147): name, args spec, result
spec, the `linked` flag and the optional `ServiceFunction` surface. -/
structure FunctionSpec where
  name : String
  args_spec : FunctionArgsSpec
  result_spec : FunctionResultSpec
  linked : Bool
  surface : Option ServiceFunction
deriving DecidableEq

/-- The two distinct `ThriftCompilerError` messages that the compile
pass of service.py can raise, told apart by their format strings. -/
inductive CompileError where
  | onewayNotSupported (service function : String)
  | duplicateFunction (service function : String)
deriving DecidableEq

/-- Embeds `FunctionSpec.compile` (service.py lines 149-171): a oneway function
is rejected before the args and result specs are built; otherwise the
args struct and result union are compiled and wrapped. -/
def FunctionSpec.compile (func : ASTFunction) (service_name : String) :
    Except CompileError FunctionSpec :=
  if func.oneway then
    Except.error (CompileError.onewayNotSupported service_name func.name)
  else
    Except.ok
      { name := func.name
        args_spec :=
          FunctionArgsSpec.compile func.parameters service_name func.name
        result_spec :=
          FunctionResultSpec.compile func.return_type func.exceptions
            service_name func.name
        linked := false
        surface := none }

/-- Embeds `FunctionSpec.link` (service.py lines 173-183): guarded by the
`linked` flag; the first call links the args and result specs and
attaches the `ServiceFunction` surface built from their surfaces. -/
def FunctionSpec.link (f : FunctionSpec) (scope : TypeScope) : FunctionSpec :=
  if f.linked then f
  else
    let args := f.args_spec.link scope
    let res := f.result_spec.link scope
    { f with
      linked := true
      args_spec := args
      result_spec := res
      surface := some { name := f.name, request := args.surface,
                        response := res.surface } }

/-- One value of the class dictionary built by `service_cls`
(service.py lines 290-295): either a function's surface (which is still
`None` for an unlinked function), the `service_spec` back-reference
(modelled as the store key of the spec), or the `__slots__` entry. -/
inductive SurfaceAttr where
  | fn (f : Option ServiceFunction)
  | specRef (serviceName : String)
  | slots
deriving DecidableEq

/-- The class generated by `service_cls` (service.py lines 278-297): its
own class dictionary plus the base class: `root` when the base is the
plain `object` (no parent service), `child` when the base is the parent
service's surface.  The dictionary is modelled as an insertion list
where the most recent insertion is at the head, so lookup takes the
first match (later `dct[k] = v` assignments win, as in a Python dict). -/
inductive ServiceSurface where
  | root (name : String) (dct : List (String × SurfaceAttr))
  | child (name : String) (dct : List (String × SurfaceAttr))
      (parent : ServiceSurface)
deriving DecidableEq

def ServiceSurface.name : ServiceSurface → String
  | ServiceSurface.root n _ => n
  | ServiceSurface.child n _ _ => n

def ServiceSurface.dct : ServiceSurface → List (String × SurfaceAttr)
  | ServiceSurface.root _ d => d
  | ServiceSurface.child _ d _ => d

def ServiceSurface.parentSurface : ServiceSurface → Option ServiceSurface
  | ServiceSurface.root _ _ => none
  | ServiceSurface.child _ _ p => some p

/-- Python attribute lookup on the generated class: the class's own
dictionary first, then the base class chain (method resolution order for
single inheritance). -/
def ServiceSurface.getattr : ServiceSurface → String → Option SurfaceAttr
  | ServiceSurface.root _ d, k => (d.find? (fun e => e.1 = k)).map (fun e => e.2)
  | ServiceSurface.child _ d p, k =>
    match (d.find? (fun e => e.1 = k)).map (fun e => e.2) with
    | some v => some v
    | none => p.getattr k

/-- Embeds `ServiceSpec` (service.py lines 193-220).  The parent is an optional
service reference; references are modelled as store keys (names), so it
stays a name after linking. -/
structure ServiceSpec where
  name : String
  functions : List FunctionSpec
  parent : Option String
  linked : Bool
  surface : Option ServiceSurface

/-- The loop body of `ServiceSpec.compile` (service.py lines 224-237):
walk the function list keeping the set of names seen so far; a repeated
name is a duplicate-name error, otherwise the function is compiled
(which itself may fail on oneway). -/
def compileFunctions (service_name : String) :
    List ASTFunction → List String → Except CompileError (List FunctionSpec)
  | [], _ => Except.ok []
  | func :: rest, names =>
    if func.name ∈ names then
      Except.error (CompileError.duplicateFunction service_name func.name)
    else
      match FunctionSpec.compile func service_name with
      | Except.error e => Except.error e
      | Except.ok fs =>
        match compileFunctions service_name rest (func.name :: names) with
        | Except.error e => Except.error e
        | Except.ok rest_specs => Except.ok (fs :: rest_specs)

/-- Embeds `ServiceSpec.compile` (service.py lines 222-239). -/
def ServiceSpec.compile (service : ASTService) : Except CompileError ServiceSpec :=
  match compileFunctions service.name service.functions [] with
  | Except.error e => Except.error e
  | Except.ok fns =>
    Except.ok
      { name := service.name, functions := fns, parent := service.parent,
        linked := false, surface := none }

/-- The `service_specs` dictionary of the compilation scope: the shared
mutable registry that `ServiceSpec.link` reads and through which parent
references are resolved.  Python object identity is modelled by the
store key. -/
abbrev ServiceStore := List (String × ServiceSpec)

def storeFind (st : ServiceStore) (k : String) : Option ServiceSpec :=
  (st.find? (fun e => e.1 = k)).map (fun e => e.2)

/-- Mutation of the spec registered under `k`: every entry with that key
is replaced (no entry is ever added, mirroring mutation of an object
already held by the dictionary). -/
def storeSet (st : ServiceStore) (k : String) (v : ServiceSpec) : ServiceStore :=
  st.map (fun e => if e.1 = k then (k, v) else e)

/-- Embeds `service_cls` (service.py lines 278-297): builds the class
dictionary by inserting each function's surface under the function's
name in order (later duplicates overwrite earlier ones), then the
`service_spec` back-reference and `__slots__`, which overwrite functions
of those names; the base class is the parent spec's surface.  Python
raises `TypeError` from `type()` when the service has a parent whose
surface is `None` (only reachable through parent cycles); that raise is
modelled by returning `none`. -/
def service_cls (service_spec : ServiceSpec) (st : ServiceStore) :
    Option ServiceSurface :=
  let fn_dct := service_spec.functions.foldl
    (fun d f => (f.name, SurfaceAttr.fn f.surface) :: d) []
  let dct := ("__slots__", SurfaceAttr.slots) ::
      ("service_spec", SurfaceAttr.specRef service_spec.name) :: fn_dct
  match service_spec.parent with
  | none => some (ServiceSurface.root service_spec.name dct)
  | some pname =>
    match (storeFind st pname).bind (fun p => p.surface) with
    | none => none
    | some ps => some (ServiceSurface.child service_spec.name dct ps)

/-- The exceptions `ServiceSpec.link` can let escape: the
`ThriftCompilerError` for an unknown parent (service.py lines 247-250)
and the `TypeError` out of `type()` in `service_cls`. -/
inductive LinkError where
  | unknownService (service parent : String)
  | typeError (service : String)
deriving DecidableEq

/-- Number of store entries whose spec is not yet linked; the measure
that the flag-guarded recursion of `ServiceSpec.link` strictly
decreases before every recursive call. -/
def unlinkedCount : ServiceStore → Nat
  | [] => 0
  | e :: rest => (if e.2.linked then 0 else 1) + unlinkedCount rest

/-- The tail of `ServiceSpec.link` after the parent has been handled
(service.py lines 253-254): re-read the spec from the store (Python
reads the mutated `self`), link each function, store the new function
list, then build and store the surface; a `None` surface out of
`service_cls` is the propagated `TypeError`, raised after `functions`
was assigned but before `surface` was. -/
def linkFinish (tsc : TypeScope) (st : ServiceStore) (name : String) :
    ServiceStore × Option LinkError :=
  match storeFind st name with
  | none => (st, none)
  | some sp =>
    let sp3 := { sp with functions := sp.functions.map (fun f => f.link tsc) }
    let st3 := storeSet st name sp3
    match service_cls sp3 st3 with
    | none => (st3, some (LinkError.typeError sp3.name))
    | some surf => (storeSet st3 name { sp3 with surface := some surf }, none)

/-- Embeds `ServiceSpec.link` (service.py lines 241-256) with an explicit fuel
argument so that the function is structurally recursive and computes.
Fuel 0 is never reached from `ServiceSpec.link`: it starts the fuel
above `unlinkedCount`, the flag is set before the recursive parent call
(so the count strictly decreases), and re-entry on a linked node
returns without recursing.  The body with fuel `n + 1` is a literal
transcription of the Python method: a linked spec returns immediately;
otherwise `linked` is set first, then an absent parent name is the
unknown-service error (raised after the flag mutation), then the parent
is linked recursively (an error propagates, leaving the mutations made
so far in the store), then functions and surface are attached. -/
def linkAux (tsc : TypeScope) :
    Nat → ServiceStore → String → ServiceStore × Option LinkError
  | 0, st, _ => (st, none)
  | fuel + 1, st, name =>
    match storeFind st name with
    | none => (st, none)
    | some sp =>
      if sp.linked then (st, none)
      else
        let st1 := storeSet st name { sp with linked := true }
        match sp.parent with
        | none => linkFinish tsc st1 name
        | some pname =>
          match storeFind st1 pname with
          | none => (st1, some (LinkError.unknownService sp.name pname))
          | some _ =>
            match linkAux tsc fuel st1 pname with
            | (st2, some e) => (st2, some e)
            | (st2, none) => linkFinish tsc st2 name

/-- Embeds `ServiceSpec.link` (service.py lines 241-256), entered on the spec
registered under `name`. -/
def ServiceSpec.link (tsc : TypeScope) (st : ServiceStore) (name : String) :
    ServiceStore × Option LinkError :=
  linkAux tsc (unlinkedCount st + 1) st name

/-! ## Claim theorems: the compile pass -/

/-- C2: for every function of service `s` named `f`,
`FunctionResultSpec.compile` produces a union named
`{s}_{f}_response` whose field list starts with a field of id 0 named
"success" holding the return type exactly when the return type is
non-void, followed by one field per declared exception, each retaining
its schema-assigned field id, in declaration order. -/
theorem result_spec_success_then_exceptions (return_type : Option String)
    (exceptions : Option (List ASTField)) (s f : String) :
    ((FunctionResultSpec.compile return_type exceptions s f).name
      = s ++ "_" ++ f ++ "_response")
  ∧ (∀ t, return_type = some t →
      (FunctionResultSpec.compile return_type exceptions s f).fields.head?
        = some { id := 0, name := "success", spec := type_spec_or_ref t,
                 required := false, default_value := none })
  ∧ (((FunctionResultSpec.compile return_type exceptions s f).fields.drop
        (if return_type.isSome then 1 else 0)).map (fun fl => (fl.id, fl.name))
      = (exceptions.getD []).map (fun exc => (exc.id, exc.name)))
  ∧ ((FunctionResultSpec.compile return_type exceptions s f).fields.length
      = (if return_type.isSome then 1 else 0) + (exceptions.getD []).length) := by
  refine ⟨rfl, ?_, ?_, ?_⟩
  · intro t ht
    subst ht
    rfl
  · cases return_type with
    | none =>
      simp [FunctionResultSpec.compile, FieldSpec.compile, List.map_map,
        Function.comp]
    | some t =>
      simp [FunctionResultSpec.compile, FieldSpec.compile, List.map_map,
        Function.comp]
  · cases return_type with
    | none => simp [FunctionResultSpec.compile]
    | some t => simp [FunctionResultSpec.compile, Nat.add_comm]

/-- Witness for C2 at a concrete function: service "S", function "ping"
returning "Pong" with one declared exception of field id 7. -/
theorem result_spec_success_then_exceptions_witness :
    ((FunctionResultSpec.compile (some "Pong")
        (some [{ id := 7, name := "err", ftype := "E", requiredness := none,
                 default := none }]) "S" "ping").name = "S_ping_response")
  ∧ ((FunctionResultSpec.compile (some "Pong")
        (some [{ id := 7, name := "err", ftype := "E", requiredness := none,
                 default := none }]) "S" "ping").fields.head?
      = some { id := 0, name := "success", spec := type_spec_or_ref "Pong",
               required := false, default_value := none })
  ∧ (((FunctionResultSpec.compile (some "Pong")
        (some [{ id := 7, name := "err", ftype := "E", requiredness := none,
                 default := none }]) "S" "ping").fields.drop 1).map
          (fun fl => (fl.id, fl.name)) = [((7 : Int), "err")]) := by
  have h := result_spec_success_then_exceptions (some "Pong")
    (some [{ id := 7, name := "err", ftype := "E", requiredness := none,
             default := none }]) "S" "ping"
  exact ⟨h.1, h.2.1 "Pong" rfl, by simpa using h.2.2.1⟩

/-- C3 counterexample: the claim says a function with a non-void return
type does not get an allow-empty result union; but `compile` passes
`allow_empty=True` unconditionally (service.py line 118), so the result
union of a function returning "Pong" does allow zero fields set. -/
theorem result_spec_allow_empty_counterexample :
    ¬ ((FunctionResultSpec.compile (some "Pong") none "S" "getPong").allow_empty
        = false) := by
  decide

/-- C3 amended: the synthesized result union always allows zero fields
set, for every return type (void or not) and exception list. -/
theorem result_spec_always_allow_empty (return_type : Option String)
    (exceptions : Option (List ASTField)) (s f : String) :
    (FunctionResultSpec.compile return_type exceptions s f).allow_empty = true := by
  rfl

/-- C4: `FunctionArgsSpec.compile` produces a struct named
`{s}_{f}_request` with exactly one field per parameter in parameter
order, each retaining the parameter's id and name, with requiredness
taken from the schema and defaulting to optional when unmarked. -/
theorem args_spec_one_field_per_parameter (parameters : List ASTField)
    (s f : String) :
    ((FunctionArgsSpec.compile parameters s f).name = s ++ "_" ++ f ++ "_request")
  ∧ ((FunctionArgsSpec.compile parameters s f).fields.map
        (fun fl => (fl.id, fl.name, fl.required))
      = parameters.map (fun p => (p.id, p.name, p.requiredness.getD false))) := by
  refine ⟨rfl, ?_⟩
  simp [FunctionArgsSpec.compile, FieldSpec.compile, List.map_map, Function.comp]

/-- C7: compiling a function whose oneway flag is set fails with the
dedicated oneway error and never succeeds; the `raise` sits before the
args and result specs are built (service.py lines 151-156). -/
theorem oneway_compile_fails (func : ASTFunction) (s : String)
    (h : func.oneway = true) :
    FunctionSpec.compile func s
      = Except.error (CompileError.onewayNotSupported s func.name) := by
  simp [FunctionSpec.compile, h]

/-- Witness for C7 at a concrete oneway function. -/
theorem oneway_compile_fails_witness :
    FunctionSpec.compile
      { name := "poke", parameters := [], return_type := none,
        exceptions := none, oneway := true } "S"
      = Except.error (CompileError.onewayNotSupported "S" "poke") :=
  oneway_compile_fails
    { name := "poke", parameters := [], return_type := none,
      exceptions := none, oneway := true } "S" rfl

/-- Walking the function list with the names seen so far: the loop of
`ServiceSpec.compile` stops with the duplicate-name error at the first
function whose name repeats (against the accumulated names), provided
every function listed strictly before it compiles (is not oneway).
Neither the duplicate itself nor anything after it is ever compiled,
because the seen-name check precedes the per-function compile. -/
theorem compileFunctions_first_duplicate (s : String) :
    ∀ (l₁ l₂ : List ASTFunction) (f : ASTFunction) (names : List String),
      (∀ g ∈ l₁, g.oneway = false) →
      (∀ g ∈ l₁, g.name ∉ names) →
      ((l₁.map ASTFunction.name).Nodup) →
      (f.name ∈ l₁.map ASTFunction.name ∨ f.name ∈ names) →
      compileFunctions s (l₁ ++ f :: l₂) names
        = Except.error (CompileError.duplicateFunction s f.name) := by
  intro l₁
  induction l₁ with
  | nil =>
    intro l₂ f names hone hfresh hnd hdup
    rcases hdup with h | h
    · simp at h
    · simp [compileFunctions, h]
  | cons g rest ih =>
    intro l₂ f names hone hfresh hnd hdup
    have hgmem : g ∈ g :: rest := List.mem_cons_self g rest
    have hgone : g.oneway = false := hone g hgmem
    have hgfresh : g.name ∉ names := hfresh g hgmem
    rw [List.map_cons, List.nodup_cons] at hnd
    have hrec := ih l₂ f (g.name :: names)
      (fun x hx => hone x (List.mem_cons_of_mem g hx))
      (fun x hx => by
        rw [List.mem_cons]
        push_neg
        refine ⟨fun hxeq => hnd.1 ?_, hfresh x (List.mem_cons_of_mem g hx)⟩
        rw [← hxeq]
        exact List.mem_map_of_mem ASTFunction.name hx)
      hnd.2
      (by
        rcases hdup with h | h
        · rw [List.map_cons, List.mem_cons] at h
          rcases h with h | h
          · exact Or.inr (by rw [h]; exact List.mem_cons_self _ _)
          · exact Or.inl h
        · exact Or.inr (List.mem_cons_of_mem _ h))
    rw [List.cons_append]
    simp only [compileFunctions, if_neg hgfresh, FunctionSpec.compile, hgone,
      Bool.false_eq_true, if_false, hrec]

/-- C6 amended: a service AST whose own function list repeats a name
fails `ServiceSpec.compile` — during compilation, before any linking —
with the duplicate-name error naming the first repeated name, provided
no function listed strictly before that first duplicate occurrence is
oneway.  (An earlier-listed oneway function fails first with the
oneway error; the duplicate occurrence itself may be oneway, since the
seen-name check precedes the oneway check.) -/
theorem compile_duplicate_function_name (service : ASTService)
    (l₁ l₂ : List ASTFunction) (f : ASTFunction)
    (hsplit : service.functions = l₁ ++ f :: l₂)
    (hnd : (l₁.map ASTFunction.name).Nodup)
    (hdup : f.name ∈ l₁.map ASTFunction.name)
    (hone : ∀ g ∈ l₁, g.oneway = false) :
    ServiceSpec.compile service
      = Except.error (CompileError.duplicateFunction service.name f.name) := by
  have h := compileFunctions_first_duplicate service.name l₁ l₂ f []
    hone (fun g _ hmem => List.not_mem_nil g.name hmem) hnd (Or.inl hdup)
  simp only [ServiceSpec.compile, hsplit, h]

/-- Witness for the amended C6, at the service [a, a, b (oneway)]: the
oneway function listed after the duplicate does not preempt the
duplicate-name error. -/
theorem compile_duplicate_function_name_witness :
    ServiceSpec.compile
      { name := "S",
        functions :=
          [ { name := "a", parameters := [], return_type := none,
              exceptions := none, oneway := false },
            { name := "a", parameters := [], return_type := none,
              exceptions := none, oneway := false },
            { name := "b", parameters := [], return_type := none,
              exceptions := none, oneway := true } ],
        parent := none }
      = Except.error (CompileError.duplicateFunction "S" "a") :=
  compile_duplicate_function_name
    { name := "S",
      functions :=
        [ { name := "a", parameters := [], return_type := none,
            exceptions := none, oneway := false },
          { name := "a", parameters := [], return_type := none,
            exceptions := none, oneway := false },
          { name := "b", parameters := [], return_type := none,
            exceptions := none, oneway := true } ],
      parent := none }
    [ { name := "a", parameters := [], return_type := none,
        exceptions := none, oneway := false } ]
    [ { name := "b", parameters := [], return_type := none,
        exceptions := none, oneway := true } ]
    { name := "a", parameters := [], return_type := none,
      exceptions := none, oneway := false }
    rfl (by decide) (by decide) (by decide)

/-- The concrete service refuting C6 as stated: two functions named
"a", the first of them oneway. -/
def dupOnewayService : ASTService :=
  { name := "S",
    functions :=
      [ { name := "a", parameters := [], return_type := none,
          exceptions := none, oneway := true },
        { name := "a", parameters := [], return_type := none,
          exceptions := none, oneway := false } ],
    parent := none }

/-- C6 counterexample: `dupOnewayService` has two functions with the
same name, yet `ServiceSpec.compile` fails with the oneway error, not
the duplicate-name error: the loop compiles the first "a" (raising on
its oneway flag) before it ever sees the repeated name. -/
theorem compile_duplicate_counterexample :
    (dupOnewayService.functions.map ASTFunction.name = ["a", "a"])
  ∧ ServiceSpec.compile dupOnewayService
      = Except.error (CompileError.onewayNotSupported "S" "a")
  ∧ ¬ (ServiceSpec.compile dupOnewayService
        = Except.error (CompileError.duplicateFunction "S" "a")) := by
  refine ⟨rfl, rfl, fun h => absurd (Except.error.inj h) (by decide)⟩

/-! ## Store lemmas -/

theorem storeFind_cons (e : String × ServiceSpec) (rest : ServiceStore)
    (q : String) :
    storeFind (e :: rest) q = if e.1 = q then some e.2 else storeFind rest q := by
  by_cases h : e.1 = q
  · rw [storeFind, List.find?_cons_of_pos _ (by simp [h]), if_pos h]
    rfl
  · rw [storeFind, List.find?_cons_of_neg _ (by simp [h]), if_neg h]
    rfl

theorem storeFind_storeSet_self (st : ServiceStore) (k : String)
    (v : ServiceSpec) :
    storeFind (storeSet st k v) k = (storeFind st k).map (fun _ => v) := by
  induction st with
  | nil => rfl
  | cons e rest ih =>
    by_cases hek : e.1 = k
    · rw [storeSet, List.map_cons, if_pos hek, storeFind_cons, storeFind_cons,
        if_pos hek, if_pos rfl]
      rfl
    · rw [storeSet, List.map_cons, if_neg hek, storeFind_cons, storeFind_cons,
        if_neg hek, if_neg hek]
      exact ih

theorem storeFind_storeSet_other (st : ServiceStore) (k : String)
    (v : ServiceSpec) (q : String) (hqk : q ≠ k) :
    storeFind (storeSet st k v) q = storeFind st q := by
  induction st with
  | nil => rfl
  | cons e rest ih =>
    by_cases hek : e.1 = k
    · rw [storeSet, List.map_cons, if_pos hek, storeFind_cons, storeFind_cons,
        if_neg (fun h : k = q => hqk h.symm),
        if_neg (fun h : e.1 = q => hqk (h.symm.trans hek))]
      exact ih
    · rw [storeSet, List.map_cons, if_neg hek, storeFind_cons, storeFind_cons]
      by_cases heq : e.1 = q
      · rw [if_pos heq, if_pos heq]
      · rw [if_neg heq, if_neg heq]
        exact ih

/-! ## Unfolding lemmas for `linkAux` -/

theorem linkAux_absent (tsc : TypeScope) (n : Nat) (st : ServiceStore)
    (m : String) (hf : storeFind st m = none) :
    linkAux tsc (n + 1) st m = (st, none) := by
  simp [linkAux, hf]

theorem linkAux_linked (tsc : TypeScope) (n : Nat) (st : ServiceStore)
    (m : String) (sp : ServiceSpec) (hf : storeFind st m = some sp)
    (hl : sp.linked = true) :
    linkAux tsc (n + 1) st m = (st, none) := by
  simp [linkAux, hf, hl]

theorem linkAux_no_parent (tsc : TypeScope) (n : Nat) (st : ServiceStore)
    (m : String) (sp : ServiceSpec) (hf : storeFind st m = some sp)
    (hl : sp.linked = false) (hp : sp.parent = none) :
    linkAux tsc (n + 1) st m
      = linkFinish tsc (storeSet st m { sp with linked := true }) m := by
  simp [linkAux, hf, hl, hp]

theorem linkAux_parent_missing (tsc : TypeScope) (n : Nat) (st : ServiceStore)
    (m : String) (sp : ServiceSpec) (pname : String)
    (hf : storeFind st m = some sp) (hl : sp.linked = false)
    (hp : sp.parent = some pname)
    (hpm : storeFind (storeSet st m { sp with linked := true }) pname = none) :
    linkAux tsc (n + 1) st m
      = (storeSet st m { sp with linked := true },
         some (LinkError.unknownService sp.name pname)) := by
  rw [hp] at hpm
  simp [linkAux, hf, hl, hp, hpm]

theorem linkAux_parent_present (tsc : TypeScope) (n : Nat) (st : ServiceStore)
    (m : String) (sp : ServiceSpec) (pname : String) (psp : ServiceSpec)
    (hf : storeFind st m = some sp) (hl : sp.linked = false)
    (hp : sp.parent = some pname)
    (hpm : storeFind (storeSet st m { sp with linked := true }) pname = some psp) :
    linkAux tsc (n + 1) st m
      = match linkAux tsc n (storeSet st m { sp with linked := true }) pname with
        | (st2, some e) => (st2, some e)
        | (st2, none) => linkFinish tsc st2 m := by
  rw [hp] at hpm
  simp [linkAux, hf, hl, hp, hpm]

theorem linkFinish_absent (tsc : TypeScope) (st : ServiceStore) (m : String)
    (hf : storeFind st m = none) : linkFinish tsc st m = (st, none) := by
  simp [linkFinish, hf]

theorem linkFinish_typeError (tsc : TypeScope) (st : ServiceStore) (m : String)
    (spm : ServiceSpec) (hf : storeFind st m = some spm)
    (hcls : service_cls
        { spm with functions := spm.functions.map (fun f => f.link tsc) }
        (storeSet st m
          { spm with functions := spm.functions.map (fun f => f.link tsc) })
      = none) :
    linkFinish tsc st m
      = (storeSet st m
           { spm with functions := spm.functions.map (fun f => f.link tsc) },
         some (LinkError.typeError spm.name)) := by
  simp [linkFinish, hf, hcls]

theorem linkFinish_success (tsc : TypeScope) (st : ServiceStore) (m : String)
    (spm : ServiceSpec) (surf : ServiceSurface)
    (hf : storeFind st m = some spm)
    (hcls : service_cls
        { spm with functions := spm.functions.map (fun f => f.link tsc) }
        (storeSet st m
          { spm with functions := spm.functions.map (fun f => f.link tsc) })
      = some surf) :
    linkFinish tsc st m
      = (storeSet
           (storeSet st m
             { spm with functions := spm.functions.map (fun f => f.link tsc) })
           m
           { spm with functions := spm.functions.map (fun f => f.link tsc),
                      surface := some surf },
         none) := by
  simp [linkFinish, hf, hcls]

/-! ## Preservation of the linked flag -/

/-- Writing under key `m` a spec whose `linked` flag agrees with the
entry currently stored there never un-links any linked entry. -/
theorem storeSet_keeps_linked (st : ServiceStore) (m q : String)
    (sp v : ServiceSpec) (h : storeFind st q = some sp) (hl : sp.linked = true)
    (hv : ∀ spm, storeFind st m = some spm → v.linked = spm.linked) :
    ∃ sp', storeFind (storeSet st m v) q = some sp' ∧ sp'.linked = true := by
  by_cases hqm : q = m
  · subst hqm
    rw [storeFind_storeSet_self, h]
    exact ⟨v, rfl, by rw [hv sp h]; exact hl⟩
  · rw [storeFind_storeSet_other st m v q hqm]
    exact ⟨sp, h, hl⟩

theorem linkFinish_preserves_linked (tsc : TypeScope) (st : ServiceStore)
    (m q : String) (sp : ServiceSpec)
    (h : storeFind st q = some sp) (hl : sp.linked = true) :
    ∃ sp', storeFind (linkFinish tsc st m).1 q = some sp' ∧ sp'.linked = true := by
  cases hf : storeFind st m with
  | none =>
    rw [linkFinish_absent tsc st m hf]
    exact ⟨sp, h, hl⟩
  | some spm =>
    have hstep1 := storeSet_keeps_linked st m q sp
      { spm with functions := spm.functions.map (fun f => f.link tsc) } h hl
      (fun spm' hspm' => by rw [hf] at hspm'; cases hspm'; rfl)
    cases hcls : service_cls
        { spm with functions := spm.functions.map (fun f => f.link tsc) }
        (storeSet st m
          { spm with functions := spm.functions.map (fun f => f.link tsc) }) with
    | none =>
      rw [linkFinish_typeError tsc st m spm hf hcls]
      exact hstep1
    | some surf =>
      rw [linkFinish_success tsc st m spm surf hf hcls]
      obtain ⟨sp1, hsp1, hsp1l⟩ := hstep1
      refine storeSet_keeps_linked _ m q sp1 _ hsp1 hsp1l (fun spm3 hspm3 => ?_)
      rw [storeFind_storeSet_self, hf] at hspm3
      cases hspm3
      rfl

theorem linkAux_preserves_linked (tsc : TypeScope) :
    ∀ (fuel : Nat) (st : ServiceStore) (m q : String) (sp : ServiceSpec),
      storeFind st q = some sp → sp.linked = true →
      ∃ sp', storeFind (linkAux tsc fuel st m).1 q = some sp'
        ∧ sp'.linked = true := by
  intro fuel
  induction fuel with
  | zero =>
    intro st m q sp h hl
    exact ⟨sp, h, hl⟩
  | succ n ih =>
    intro st m q sp h hl
    cases hf : storeFind st m with
    | none =>
      rw [linkAux_absent tsc n st m hf]
      exact ⟨sp, h, hl⟩
    | some spm =>
      cases hlm : spm.linked with
      | true =>
        rw [linkAux_linked tsc n st m spm hf hlm]
        exact ⟨sp, h, hl⟩
      | false =>
        have hqm : q ≠ m := by
          intro hqm
          subst hqm
          rw [h] at hf
          cases hf
          rw [hl] at hlm
          cases hlm
        have hstep1 : storeFind (storeSet st m { spm with linked := true }) q
            = some sp := by
          rw [storeFind_storeSet_other st m _ q hqm]
          exact h
        cases hp : spm.parent with
        | none =>
          rw [linkAux_no_parent tsc n st m spm hf hlm hp]
          exact linkFinish_preserves_linked tsc _ m q sp hstep1 hl
        | some pname =>
          cases hpm : storeFind (storeSet st m { spm with linked := true })
              pname with
          | none =>
            rw [linkAux_parent_missing tsc n st m spm pname hf hlm hp hpm]
            exact ⟨sp, hstep1, hl⟩
          | some psp =>
            rw [linkAux_parent_present tsc n st m spm pname psp hf hlm hp hpm]
            obtain ⟨sp2, hsp2, hsp2l⟩ :=
              ih (storeSet st m { spm with linked := true }) pname q sp
                hstep1 hl
            rcases hrec : linkAux tsc n (storeSet st m { spm with linked := true })
                pname with ⟨st2, e2⟩
            rw [hrec] at hsp2
            cases e2 with
            | some e => exact ⟨sp2, hsp2, hsp2l⟩
            | none => exact linkFinish_preserves_linked tsc st2 m q sp2 hsp2 hsp2l

/-- After running `linkAux` on an entry that is present, that entry's
`linked` flag is set, whatever path (success, unknown parent, type
error) was taken: Python sets `self.linked = True` before doing
anything else. -/
theorem linkAux_sets_linked (tsc : TypeScope) (n : Nat) (st : ServiceStore)
    (m : String) (sp : ServiceSpec) (hf : storeFind st m = some sp) :
    ∃ sp', storeFind (linkAux tsc (n + 1) st m).1 m = some sp'
      ∧ sp'.linked = true := by
  cases hl : sp.linked with
  | true =>
    rw [linkAux_linked tsc n st m sp hf hl]
    exact ⟨sp, hf, hl⟩
  | false =>
    have hstep1 : storeFind (storeSet st m { sp with linked := true }) m
        = some { sp with linked := true } := by
      rw [storeFind_storeSet_self, hf]
      rfl
    cases hp : sp.parent with
    | none =>
      rw [linkAux_no_parent tsc n st m sp hf hl hp]
      exact linkFinish_preserves_linked tsc _ m m _ hstep1 rfl
    | some pname =>
      cases hpm : storeFind (storeSet st m { sp with linked := true }) pname with
      | none =>
        rw [linkAux_parent_missing tsc n st m sp pname hf hl hp hpm]
        exact ⟨_, hstep1, rfl⟩
      | some psp =>
        rw [linkAux_parent_present tsc n st m sp pname psp hf hl hp hpm]
        obtain ⟨sp2, hsp2, hsp2l⟩ :=
          linkAux_preserves_linked tsc n _ pname m _ hstep1 rfl
        rcases hrec : linkAux tsc n (storeSet st m { sp with linked := true })
            pname with ⟨st2, e2⟩
        rw [hrec] at hsp2
        cases e2 with
        | some e => exact ⟨sp2, hsp2, hsp2l⟩
        | none => exact linkFinish_preserves_linked tsc st2 m m sp2 hsp2 hsp2l

/-- The unknown-parent path of `ServiceSpec.link` in one equation: the
flag mutation happens, then the membership test fails and the error is
raised — nothing else of the spec is touched. -/
theorem link_unknown_parent_eq (tsc : TypeScope) (st : ServiceStore)
    (n : String) (sp : ServiceSpec) (pname : String)
    (hf : storeFind st n = some sp) (hl : sp.linked = false)
    (hp : sp.parent = some pname) (hpm : storeFind st pname = none) :
    ServiceSpec.link tsc st n
      = (storeSet st n { sp with linked := true },
         some (LinkError.unknownService sp.name pname)) := by
  have hne : pname ≠ n := by
    intro h
    subst h
    rw [hf] at hpm
    cases hpm
  have hpm1 : storeFind (storeSet st n { sp with linked := true }) pname
      = none := by
    rw [storeFind_storeSet_other st n _ pname hne]
    exact hpm
  unfold ServiceSpec.link
  exact linkAux_parent_missing tsc (unlinkedCount st) st n sp pname hf hl hp hpm1

/-! ## Claim theorems: the link pass -/

/-- C9: the flag guard is what makes `link` total on cyclic graphs:
re-entering `link` on a spec whose `linked` flag is already set returns
immediately, leaving the store untouched and raising nothing.  (The
embedding of `link` is a total function for every store, cyclic parent
graphs included: the flag is set before the recursive parent call, so
the number of unlinked entries strictly decreases down the recursion.) -/
theorem link_reentry_short_circuits (tsc : TypeScope) (st : ServiceStore)
    (n : String) (sp : ServiceSpec)
    (hf : storeFind st n = some sp) (hl : sp.linked = true) :
    ServiceSpec.link tsc st n = (st, none) := by
  unfold ServiceSpec.link
  exact linkAux_linked tsc (unlinkedCount st) st n sp hf hl

/-- A spec that is already linked, for the C9 witness. -/
def linkedPing : ServiceSpec :=
  { name := "Ping", functions := [], parent := none, linked := true,
    surface := none }

/-- Witness for C9: re-entry on a linked spec is the identity. -/
theorem link_reentry_short_circuits_witness :
    ServiceSpec.link [] [("Ping", linkedPing)] "Ping"
      = ([("Ping", linkedPing)], none) :=
  link_reentry_short_circuits [] [("Ping", linkedPing)] "Ping" linkedPing rfl rfl

/-- C5: `link` is idempotent.  For a `FunctionSpec` the second
application returns its input unchanged; for a `ServiceSpec` the second
call on the store produced by the first call is a no-op returning that
same store and raising nothing (also when the first call raised: the
flag set by the first call guards the second). -/
theorem link_idempotent :
    (∀ (f : FunctionSpec) (tsc : TypeScope),
        FunctionSpec.link (FunctionSpec.link f tsc) tsc
          = FunctionSpec.link f tsc)
  ∧ (∀ (tsc : TypeScope) (st : ServiceStore) (n : String),
        ServiceSpec.link tsc (ServiceSpec.link tsc st n).1 n
          = ((ServiceSpec.link tsc st n).1, none)) := by
  constructor
  · intro f tsc
    cases hfl : f.linked with
    | true => simp [FunctionSpec.link, hfl]
    | false => simp [FunctionSpec.link, hfl]
  · intro tsc st n
    cases hf : storeFind st n with
    | none =>
      have h1 : ServiceSpec.link tsc st n = (st, none) := by
        unfold ServiceSpec.link
        exact linkAux_absent tsc (unlinkedCount st) st n hf
      rw [h1]
      unfold ServiceSpec.link
      exact linkAux_absent tsc (unlinkedCount st) st n hf
    | some sp =>
      have h2 : ∃ sp', storeFind (ServiceSpec.link tsc st n).1 n = some sp'
          ∧ sp'.linked = true :=
        linkAux_sets_linked tsc (unlinkedCount st) st n sp hf
      obtain ⟨sp', hsp', hl'⟩ := h2
      unfold ServiceSpec.link
      exact linkAux_linked tsc _ _ n sp' hsp' hl'

/-- C8: linking a not-yet-linked service whose declared parent name is
not registered in the scope's service registry raises the
unknown-service `ThriftCompilerError`; the store records only the flag
mutation made before the raise. -/
theorem link_unknown_parent_error (tsc : TypeScope) (st : ServiceStore)
    (n : String) (sp : ServiceSpec) (pname : String)
    (hf : storeFind st n = some sp) (hl : sp.linked = false)
    (hp : sp.parent = some pname) (hpm : storeFind st pname = none) :
    ServiceSpec.link tsc st n
      = (storeSet st n { sp with linked := true },
         some (LinkError.unknownService sp.name pname)) :=
  link_unknown_parent_eq tsc st n sp pname hf hl hp hpm

/-- A child service declaring an absent parent, for the C8 and C10
witnesses. -/
def orphanChild : ServiceSpec :=
  { name := "C", functions := [], parent := some "P", linked := false,
    surface := none }

/-- Witness for C8 at a concrete store: "C" inherits from the
unregistered "P". -/
theorem link_unknown_parent_error_witness :
    ServiceSpec.link [] [("C", orphanChild)] "C"
      = (storeSet [("C", orphanChild)] "C" { orphanChild with linked := true },
         some (LinkError.unknownService "C" "P")) :=
  link_unknown_parent_error [] [("C", orphanChild)] "C" orphanChild "P"
    rfl rfl rfl rfl

/-- C10: the unknown-parent failure is not atomic.  The first call
raises the unknown-service error but has already set the spec's
`linked` flag while its surface is still `None`; the second call on the
same store returns immediately, raising nothing and never attaching a
surface. -/
theorem link_failure_sets_flag_without_surface (tsc : TypeScope)
    (st : ServiceStore) (n : String) (sp : ServiceSpec) (pname : String)
    (hf : storeFind st n = some sp) (hl : sp.linked = false)
    (hsurf : sp.surface = none)
    (hp : sp.parent = some pname) (hpm : storeFind st pname = none) :
    ((ServiceSpec.link tsc st n).2
        = some (LinkError.unknownService sp.name pname))
  ∧ (storeFind (ServiceSpec.link tsc st n).1 n
        = some { sp with linked := true })
  ∧ (({ sp with linked := true } : ServiceSpec).surface = none)
  ∧ (ServiceSpec.link tsc (ServiceSpec.link tsc st n).1 n
        = ((ServiceSpec.link tsc st n).1, none)) := by
  have hmain := link_unknown_parent_eq tsc st n sp pname hf hl hp hpm
  refine ⟨by rw [hmain], ?_, hsurf, ?_⟩
  · rw [hmain]
    show storeFind (storeSet st n { sp with linked := true }) n
      = some { sp with linked := true }
    rw [storeFind_storeSet_self, hf]
    rfl
  · have hfind : storeFind (ServiceSpec.link tsc st n).1 n
        = some { sp with linked := true } := by
      rw [hmain]
      show storeFind (storeSet st n { sp with linked := true }) n
        = some { sp with linked := true }
      rw [storeFind_storeSet_self, hf]
      rfl
    unfold ServiceSpec.link
    exact linkAux_linked tsc _ _ n { sp with linked := true } hfind rfl

/-- Witness for C10 at the concrete orphan store. -/
theorem link_failure_sets_flag_without_surface_witness :
    ((ServiceSpec.link [] [("C", orphanChild)] "C").2
        = some (LinkError.unknownService "C" "P"))
  ∧ (storeFind (ServiceSpec.link [] [("C", orphanChild)] "C").1 "C"
        = some { orphanChild with linked := true })
  ∧ (({ orphanChild with linked := true } : ServiceSpec).surface = none)
  ∧ (ServiceSpec.link [] (ServiceSpec.link [] [("C", orphanChild)] "C").1 "C"
        = ((ServiceSpec.link [] [("C", orphanChild)] "C").1, none)) :=
  link_failure_sets_flag_without_surface [] [("C", orphanChild)] "C"
    orphanChild "P" rfl rfl rfl rfl rfl

/-! ## The generated class dictionary -/

/-- The last function in a list bearing a given name: dictionary
insertion in `service_cls` lets later same-named functions overwrite
earlier ones, so the last write is the one visible. -/
def findLast : List FunctionSpec → String → Option FunctionSpec
  | [], _ => none
  | f :: rest, k =>
    match findLast rest k with
    | some g => some g
    | none => if f.name = k then some f else none

theorem findLast_eq_none (k : String) :
    ∀ fns : List FunctionSpec, k ∉ fns.map FunctionSpec.name →
      findLast fns k = none := by
  intro fns
  induction fns with
  | nil => intro _; rfl
  | cons f rest ih =>
    intro hk
    rw [List.map_cons, List.mem_cons] at hk
    push_neg at hk
    rw [findLast, ih hk.2, if_neg (fun h => hk.1 h.symm)]

theorem findLast_nodup :
    ∀ (fns : List FunctionSpec) (f : FunctionSpec),
      (fns.map FunctionSpec.name).Nodup → f ∈ fns →
      findLast fns f.name = some f := by
  intro fns
  induction fns with
  | nil =>
    intro f _ hm
    cases hm
  | cons g rest ih =>
    intro f hnd hm
    rw [List.map_cons, List.nodup_cons] at hnd
    rcases List.mem_cons.mp hm with rfl | hm'
    · rw [findLast, findLast_eq_none f.name rest hnd.1, if_pos rfl]
    · rw [findLast, ih f hnd.2 hm']

/-- Lookup in the dictionary built by the `service_cls` fold: the last
same-named function wins, and a name hit by no function falls through
to the fold's accumulator. -/
theorem dct_find_foldl (k : String) :
    ∀ (fns : List FunctionSpec) (acc : List (String × SurfaceAttr)),
      (((fns.foldl (fun d f => (f.name, SurfaceAttr.fn f.surface) :: d)
          acc).find? (fun e => e.1 = k)).map (fun e => e.2))
        = match findLast fns k with
          | some g => some (SurfaceAttr.fn g.surface)
          | none => ((acc.find? (fun e => e.1 = k)).map (fun e => e.2)) := by
  intro fns
  induction fns with
  | nil =>
    intro acc
    simp [findLast]
  | cons f rest ih =>
    intro acc
    rw [List.foldl_cons, ih]
    cases hfl : findLast rest k with
    | some g => simp [findLast, hfl]
    | none =>
      by_cases hk : f.name = k
      · rw [findLast, hfl]
        simp [hk]
      · rw [findLast, hfl]
        simp [hk]

/-- Lookup over the generated class dictionary skips the two
bookkeeping entries when the looked-up name is neither of them. -/
theorem find_skip_specials (k nm : String)
    (rest : List (String × SurfaceAttr))
    (h1 : k ≠ "service_spec") (h2 : k ≠ "__slots__") :
    ((("__slots__", SurfaceAttr.slots) ::
      ("service_spec", SurfaceAttr.specRef nm) :: rest).find?
        (fun e => e.1 = k))
      = rest.find? (fun e => e.1 = k) := by
  have hA : ¬ (("__slots__" : String) = k) := fun h => h2 h.symm
  have hB : ¬ (("service_spec" : String) = k) := fun h => h1 h.symm
  simp [List.find?, hA, hB]

/-- Lookup over the generated class dictionary hits the
`service_spec` back-reference entry. -/
theorem find_specials_specref (nm : String)
    (rest : List (String × SurfaceAttr)) :
    ((("__slots__", SurfaceAttr.slots) ::
      ("service_spec", SurfaceAttr.specRef nm) :: rest).find?
        (fun e => e.1 = "service_spec"))
      = some ("service_spec", SurfaceAttr.specRef nm) := by
  simp [List.find?]

/-- C1 amended: on the class generated by `service_cls`, every own
function is an attribute under its name — shadowing any same-named
ancestor function, since the own dictionary is consulted before the
base class — except the names "service_spec" and "__slots__", which the
class bookkeeping entries overwrite; the `service_spec` attribute is
the back-reference to the spec; and every other name falls through to
the parent service's surface (the ancestor chain), so the surface
exposes exactly the own functions unioned over the ancestors. -/
theorem service_surface_lookup (spec : ServiceSpec) (st : ServiceStore)
    (surf : ServiceSurface)
    (hnd : (spec.functions.map FunctionSpec.name).Nodup)
    (hs : service_cls spec st = some surf) :
    (∀ f ∈ spec.functions, f.name ≠ "service_spec" → f.name ≠ "__slots__" →
        surf.getattr f.name = some (SurfaceAttr.fn f.surface))
  ∧ surf.getattr "service_spec" = some (SurfaceAttr.specRef spec.name)
  ∧ (∀ k, k ∉ spec.functions.map FunctionSpec.name →
        k ≠ "service_spec" → k ≠ "__slots__" →
        surf.getattr k
          = match surf.parentSurface with
            | some ps => ps.getattr k
            | none => none) := by
  have hsurf : (surf = ServiceSurface.root spec.name
      (("__slots__", SurfaceAttr.slots) ::
        ("service_spec", SurfaceAttr.specRef spec.name) ::
        spec.functions.foldl
          (fun d f => (f.name, SurfaceAttr.fn f.surface) :: d) []))
    ∨ (∃ ps, surf = ServiceSurface.child spec.name
      (("__slots__", SurfaceAttr.slots) ::
        ("service_spec", SurfaceAttr.specRef spec.name) ::
        spec.functions.foldl
          (fun d f => (f.name, SurfaceAttr.fn f.surface) :: d) []) ps) := by
    cases hp : spec.parent with
    | none =>
      simp only [service_cls, hp] at hs
      exact Or.inl (Option.some.inj hs).symm
    | some pname =>
      simp only [service_cls, hp] at hs
      cases hps : (storeFind st pname).bind (fun q => q.surface) with
      | none =>
        rw [hps] at hs
        cases hs
      | some ps =>
        rw [hps] at hs
        exact Or.inr ⟨ps, (Option.some.inj hs).symm⟩
  have hown : ∀ f ∈ spec.functions, findLast spec.functions f.name = some f :=
    fun f hf => findLast_nodup spec.functions f hnd hf
  rcases hsurf with rfl | ⟨ps, rfl⟩
  · refine ⟨?_, ?_, ?_⟩
    · intro f hf hf1 hf2
      rw [ServiceSurface.getattr, find_skip_specials f.name spec.name _ hf1 hf2]
      rw [show ((spec.functions.foldl
            (fun d f => (f.name, SurfaceAttr.fn f.surface) :: d) []).find?
              (fun e => e.1 = f.name)).map (fun e => e.2)
          = some (SurfaceAttr.fn f.surface) from by
        rw [dct_find_foldl f.name spec.functions [], hown f hf]]
    · rw [ServiceSurface.getattr, find_specials_specref]
      rfl
    · intro k hk hk1 hk2
      rw [ServiceSurface.getattr, find_skip_specials k spec.name _ hk1 hk2]
      rw [show ((spec.functions.foldl
            (fun d f => (f.name, SurfaceAttr.fn f.surface) :: d) []).find?
              (fun e => e.1 = k)).map (fun e => e.2)
          = none from by
        rw [dct_find_foldl k spec.functions [], findLast_eq_none k spec.functions hk]
        rfl]
      rfl
  · refine ⟨?_, ?_, ?_⟩
    · intro f hf hf1 hf2
      rw [ServiceSurface.getattr, find_skip_specials f.name spec.name _ hf1 hf2]
      rw [show ((spec.functions.foldl
            (fun d f => (f.name, SurfaceAttr.fn f.surface) :: d) []).find?
              (fun e => e.1 = f.name)).map (fun e => e.2)
          = some (SurfaceAttr.fn f.surface) from by
        rw [dct_find_foldl f.name spec.functions [], hown f hf]]
    · rw [ServiceSurface.getattr, find_specials_specref]
      rfl
    · intro k hk hk1 hk2
      rw [ServiceSurface.getattr, find_skip_specials k spec.name _ hk1 hk2]
      rw [show ((spec.functions.foldl
            (fun d f => (f.name, SurfaceAttr.fn f.surface) :: d) []).find?
              (fun e => e.1 = k)).map (fun e => e.2)
          = none from by
        rw [dct_find_foldl k spec.functions [], findLast_eq_none k spec.functions hk]
        rfl]
      rfl

/-- Concrete service for the C1 amended witness: one function "ping". -/
def pingFnSpec : FunctionSpec :=
  { name := "ping"
    args_spec := { name := "X_ping_request", fields := [], linked := false,
                   surface := none }
    result_spec := { name := "X_ping_response", fields := [],
                     allow_empty := true, linked := false, surface := none }
    linked := false
    surface := none }

def pingService : ServiceSpec :=
  { name := "X", functions := [pingFnSpec], parent := none, linked := false,
    surface := none }

def pingSurface : ServiceSurface :=
  ServiceSurface.root "X"
    [("__slots__", SurfaceAttr.slots),
     ("service_spec", SurfaceAttr.specRef "X"),
     ("ping", SurfaceAttr.fn none)]

/-- Witness for the amended C1 on `pingService`: the own function is an
attribute, the back-reference is there, and unknown names resolve to
nothing. -/
theorem service_surface_lookup_witness :
    pingSurface.getattr "ping" = some (SurfaceAttr.fn none)
  ∧ pingSurface.getattr "service_spec" = some (SurfaceAttr.specRef "X")
  ∧ pingSurface.getattr "pong" = none := by
  have h := service_surface_lookup pingService [] pingSurface (by decide) rfl
  refine ⟨?_, h.2.1, ?_⟩
  · have h1 := h.1 pingFnSpec (by decide) (by decide) (by decide)
    simpa using h1
  · have h3 := h.2.2 "pong" (by decide) (by decide) (by decide)
    simpa using h3

/-- The service refuting C1 as stated: its single function is named
"service_spec". -/
def shadowService : ASTService :=
  { name := "S",
    functions := [ { name := "service_spec", parameters := [],
                     return_type := none, exceptions := none,
                     oneway := false } ],
    parent := none }

/-- The store after compiling and linking `shadowService`. -/
def shadowLinked : ServiceStore × Option LinkError :=
  match ServiceSpec.compile shadowService with
  | Except.ok sp => ServiceSpec.link [] [("S", sp)] "S"
  | Except.error _ => ([], none)

/-- Attribute "service_spec" on the linked shadow service's surface. -/
def shadowAttr : Option SurfaceAttr :=
  match storeFind shadowLinked.1 "S" with
  | some sp =>
    match sp.surface with
    | some surf => surf.getattr "service_spec"
    | none => none
  | none => none

/-- The linked `ServiceFunction` of the shadow service's function. -/
def shadowFunctionSurface : Option (Option ServiceFunction) :=
  match storeFind shadowLinked.1 "S" with
  | some sp =>
    match sp.functions with
    | f :: _ => some f.surface
    | [] => none
  | none => none

/-- C1 counterexample: compiling and linking a service with a function
named "service_spec" succeeds, the function gets a linked
`ServiceFunction` surface, yet attribute lookup of "service_spec" on
the service surface yields the spec back-reference, not that function:
`service_cls` writes `service_dct['service_spec'] = service_spec` after
the function loop, overwriting the function's entry, so the surface
does not expose this own function. -/
theorem service_surface_shadow_counterexample :
    shadowLinked.2 = none
  ∧ shadowFunctionSurface
      = some (some { name := "service_spec",
                     request := some { name := "S_service_spec_request" },
                     response := some { name := "S_service_spec_response" } })
  ∧ shadowAttr = some (SurfaceAttr.specRef "S")
  ∧ shadowAttr ≠ some (SurfaceAttr.fn
      (some { name := "service_spec",
              request := some { name := "S_service_spec_request" },
              response := some { name := "S_service_spec_response" } })) := by
  refine ⟨rfl, rfl, rfl, ?_⟩
  decide

/-! ## Sufficiency of the fuel seeded by `ServiceSpec.link` -/

theorem unlinkedCount_storeSet_le (st : ServiceStore) (k : String)
    (v : ServiceSpec) (hv : v.linked = true) :
    unlinkedCount (storeSet st k v) ≤ unlinkedCount st := by
  induction st with
  | nil => exact Nat.le_refl _
  | cons e rest ih =>
    rw [storeSet, List.map_cons]
    by_cases hek : e.1 = k
    · rw [if_pos hek, unlinkedCount, unlinkedCount]
      simp only [hv, if_true, Nat.zero_add]
      exact Nat.le_trans ih (Nat.le_add_left _ _)
    · rw [if_neg hek, unlinkedCount, unlinkedCount]
      exact Nat.add_le_add_left ih _

theorem unlinkedCount_storeSet_lt (st : ServiceStore) (k : String)
    (sp v : ServiceSpec) (hf : storeFind st k = some sp)
    (hsp : sp.linked = false) (hv : v.linked = true) :
    unlinkedCount (storeSet st k v) < unlinkedCount st := by
  induction st with
  | nil => cases hf
  | cons e rest ih =>
    rw [storeSet, List.map_cons]
    by_cases hek : e.1 = k
    · rw [storeFind_cons, if_pos hek] at hf
      have he2 : e.2 = sp := Option.some.inj hf
      have hle := unlinkedCount_storeSet_le rest k v hv
      simp only [storeSet] at hle
      rw [if_pos hek, unlinkedCount, unlinkedCount, he2, hsp, hv]
      norm_num
      omega
    · rw [storeFind_cons, if_neg hek] at hf
      rw [if_neg hek, unlinkedCount, unlinkedCount]
      exact Nat.add_lt_add_left (ih hf) _

/-- Changing the fuel does not change `linkAux` as long as the fuel
stays above the number of unlinked entries: the flag is set before the
recursive parent call, so that count strictly decreases while the fuel
drops by exactly one. -/
theorem linkAux_fuel_irrelevant (tsc : TypeScope) :
    ∀ (f1 f2 : Nat) (st : ServiceStore) (m : String),
      unlinkedCount st < f1 → unlinkedCount st < f2 →
      linkAux tsc f1 st m = linkAux tsc f2 st m := by
  intro f1
  induction f1 with
  | zero =>
    intro f2 st m h1 _
    exact absurd h1 (Nat.not_lt_zero _)
  | succ a ih =>
    intro f2 st m h1 h2
    cases f2 with
    | zero => exact absurd h2 (Nat.not_lt_zero _)
    | succ b =>
      cases hf : storeFind st m with
      | none => rw [linkAux_absent tsc a st m hf, linkAux_absent tsc b st m hf]
      | some sp =>
        cases hl : sp.linked with
        | true =>
          rw [linkAux_linked tsc a st m sp hf hl,
              linkAux_linked tsc b st m sp hf hl]
        | false =>
          cases hp : sp.parent with
          | none =>
            rw [linkAux_no_parent tsc a st m sp hf hl hp,
                linkAux_no_parent tsc b st m sp hf hl hp]
          | some pname =>
            cases hpm : storeFind (storeSet st m { sp with linked := true })
                pname with
            | none =>
              rw [linkAux_parent_missing tsc a st m sp pname hf hl hp hpm,
                  linkAux_parent_missing tsc b st m sp pname hf hl hp hpm]
            | some psp =>
              rw [linkAux_parent_present tsc a st m sp pname psp hf hl hp hpm,
                  linkAux_parent_present tsc b st m sp pname psp hf hl hp hpm]
              have hlt : unlinkedCount (storeSet st m { sp with linked := true })
                  < unlinkedCount st :=
                unlinkedCount_storeSet_lt st m sp _ hf hl rfl
              rw [ih b (storeSet st m { sp with linked := true }) pname
                  (Nat.lt_of_lt_of_le hlt (Nat.lt_succ_iff.mp h1))
                  (Nat.lt_of_lt_of_le hlt (Nat.lt_succ_iff.mp h2))]

/-- The fuel `ServiceSpec.link` seeds is always sufficient: linking
with any fuel above the unlinked-entry count computes the same result,
so the fuel-0 branch of `linkAux` is unreachable from
`ServiceSpec.link`. -/
theorem link_fuel_sufficient (tsc : TypeScope) (st : ServiceStore) (m : String)
    (f : Nat) (h : unlinkedCount st < f) :
    linkAux tsc f st m = ServiceSpec.link tsc st m :=
  linkAux_fuel_irrelevant tsc f (unlinkedCount st + 1) st m h (Nat.lt_succ_self _)
